import Mathlib

/-!
Verification of the `conversion_log_analyzer` package: a shallow embedding of
`parser.py` (line classification and step-tag extraction), `analyzer.py`
(the aggregation accumulator) and `reporter.py` (the Markdown detailed
report), with theorems settling the specification's claims about them.

Strings are modelled as Lean `String`s (lists of characters); the regular
expressions of `parser.py` are embedded as executable character-list scans;
file I/O is modelled by an abstract file system `String → Option (List String)`
mapping a path to its lines when the file is readable.
-/

set_option maxRecDepth 10000

namespace ConversionLogAnalyzer

/-! ### Embedding of `parser.py` -/

/-- A word character in the sense of the regex `\b` boundary: `[A-Za-z0-9_]`. -/
def isWordChar (c : Char) : Bool := c.isAlphanum || c == '_'

/-- Case-insensitive test that `kw` is a prefix of `s` (ASCII case folding,
matching `re.IGNORECASE` on the ASCII keywords used by the parser). -/
def ciStartsWith : List Char → List Char → Bool
  | [], _ => true
  | _ :: _, [] => false
  | k :: ks, c :: cs => (k.toLower == c.toLower) && ciStartsWith ks cs

/-- Is there a word-boundary before the current position?  `prev` is the
character immediately before the position, `none` at the start of the line.
The keywords start with a word character, so the boundary holds exactly when
the previous character is absent or not a word character. -/
def boundaryBefore : Option Char → Bool
  | none => true
  | some p => !isWordChar p

/-- Is there a word-boundary after a keyword ending right before `rest`?
The keywords end with a word character, so the boundary holds exactly when
`rest` is empty or starts with a non-word character. -/
def boundaryAfter : List Char → Bool
  | [] => true
  | c :: _ => !isWordChar c

/-- Scan of `s` for a word-bounded case-insensitive occurrence of `kw`;
`prev` is the character just before the current position.  Embeds
`re.compile(r'\bKW\b', re.IGNORECASE).search(line)` for the alphabetic
keywords `KW` of `parser.py`. -/
def wordSearchAux (kw : List Char) : Option Char → List Char → Bool
  | _, [] => false
  | prev, c :: cs =>
    (boundaryBefore prev && ciStartsWith kw (c :: cs) && boundaryAfter ((c :: cs).drop kw.length))
    || wordSearchAux kw (some c) cs

/-- Test `searchWord kw line`: does `line` contain `kw` as a case-insensitive,
word-bounded occurrence (the `PATTERN.search(line)` test of `LogParser`). -/
def searchWord (kw : String) (line : String) : Bool :=
  wordSearchAux kw.data none line.data

/-- Embedding of `LogParser.STEP_PATTERN` matching at the head of `s`:
`\[STEP:([^\]]+)\]` with `re.IGNORECASE`.  Returns the captured group
(the non-empty run of non-`]` characters after the case-insensitive literal
`[STEP:`, which must be followed by `]`). -/
def stepAt (s : List Char) : Option (List Char) :=
  if ciStartsWith "[STEP:".data s then
    let rest := s.drop 6
    let content := rest.takeWhile (fun c => c ≠ ']')
    if content.length > 0 && content.length < rest.length then some content else none
  else none

/-- Leftmost match of the step pattern in `s` (`STEP_PATTERN.search`). -/
def searchStep : List Char → Option (List Char)
  | [] => none
  | c :: cs =>
    match stepAt (c :: cs) with
    | some content => some content
    | none => searchStep cs

/-- Embedding of Python's `str.strip()`: remove leading and trailing
whitespace characters. -/
def strip (s : String) : String :=
  String.mk (((s.data.dropWhile Char.isWhitespace).reverse.dropWhile Char.isWhitespace).reverse)

/-- Composition of the search with `group(1).strip()`: the captured step
text with surrounding whitespace trimmed, or `none` when the pattern does not
match the line. -/
def extractStep (line : String) : Option String :=
  (searchStep line.data).map (fun cs => strip (String.mk cs))

/-- Embedding of the `LogEntry` dataclass of `parser.py`. -/
structure LogEntry where
  line_number : Nat
  message : String
  level : String
  step : Option String
deriving Repr, DecidableEq

/-- The level-determination chain of `LogParser._parse_line`: CRITICAL, then
ERROR, then WARNING, else no level. -/
def parseLineLevel (line : String) : Option String :=
  if searchWord "CRITICAL" line then some "CRITICAL"
  else if searchWord "ERROR" line then some "ERROR"
  else if searchWord "WARNING" line then some "WARNING"
  else none

/-- Embedding of `LogParser._parse_line`: classify the line, and when a level
matched build the entry with `message = line.strip()` and the optional step. -/
def parseLine (line : String) (line_number : Nat) : Option LogEntry :=
  match parseLineLevel line with
  | none => none
  | some level =>
    some { line_number := line_number, message := strip line, level := level,
           step := extractStep line }

/-- The spec-side characterization for the classifier's level: the first of
CRITICAL, ERROR, WARNING whose keyword occurs in the line as a
case-insensitive word-boundary match. -/
def firstMatchingLevel (line : String) : Option String :=
  ["CRITICAL", "ERROR", "WARNING"].find? (fun kw => searchWord kw line)

/-! ### Embedding of `analyzer.py`

Python `dict`s (and `defaultdict`s) are modelled as insertion-ordered
association lists: updating an existing key keeps its position, a new key is
appended at the end, exactly as CPython dictionaries behave. -/

/-- An insertion-ordered dictionary. -/
structure Dict (α β : Type) where
  entries : List (α × β)
deriving Repr, DecidableEq

/-- The empty dictionary. -/
def Dict.empty {α β : Type} : Dict α β := ⟨[]⟩

/-- First value bound to `k`, if any (`dict.__contains__`/lookup). -/
def Dict.find? {α β : Type} [DecidableEq α] (d : Dict α β) (k : α) : Option β :=
  (d.entries.find? (fun p => decide (p.1 = k))).map Prod.snd

/-- Lookup `dict.get(k, default)`, without inserting. -/
def Dict.getD {α β : Type} [DecidableEq α] (d : Dict α β) (k : α) (v₀ : β) : β :=
  (d.find? k).getD v₀

/-- Update the binding of `k` in an entry list: an existing key keeps its
position, a missing key is appended at the end with `f none`. -/
def updateEntries {α β : Type} [DecidableEq α] :
    List (α × β) → α → (Option β → β) → List (α × β)
  | [], k, f => [(k, f none)]
  | (k', v) :: rest, k, f =>
    if k' = k then (k', f (some v)) :: rest else (k', v) :: updateEntries rest k f

/-- Write `d[k] = f (current value)` with CPython insertion-order semantics. -/
def Dict.update {α β : Type} [DecidableEq α] (d : Dict α β) (k : α)
    (f : Option β → β) : Dict α β :=
  ⟨updateEntries d.entries k f⟩

/-- The keys `list(d.keys())`, in insertion order. -/
def Dict.keys {α β : Type} (d : Dict α β) : List α := d.entries.map Prod.fst

/-- The per-entry dictionary built by `LogAnalyzer.add_entry` (`entry_data`). -/
structure EntryData where
  line_number : Nat
  message : String
  level : String
  step : Option String
  filename : Option String
deriving Repr, DecidableEq

/-- The `entry_data` dictionary for a `LogEntry` and optional filename. -/
def mkEntryData (e : LogEntry) (filename : Option String) : EntryData :=
  ⟨e.line_number, e.message, e.level, e.step, filename⟩

/-- The mutable state of `LogAnalyzer`. -/
structure LogAnalyzer where
  total_entries : Nat
  level_counts : Dict String Nat
  step_counts : Dict String (Dict String Nat)
  entries_by_level : Dict String (List EntryData)
  entries_by_step : Dict String (List EntryData)
deriving Repr, DecidableEq

/-- Embedding of `LogAnalyzer.reset`: clear all statistics. -/
def LogAnalyzer.reset (_a : LogAnalyzer) : LogAnalyzer :=
  ⟨0, Dict.empty, Dict.empty, Dict.empty, Dict.empty⟩

/-- Embedding of `LogAnalyzer.__init__` (which just calls `reset`). -/
def LogAnalyzer.init : LogAnalyzer :=
  ⟨0, Dict.empty, Dict.empty, Dict.empty, Dict.empty⟩

/-- Python truthiness of the optional step string: `if entry.step:` is taken
exactly when the step is present and non-empty. -/
def stepTruthy : Option String → Bool
  | none => false
  | some s => s ≠ ""

/-- Embedding of `LogAnalyzer.add_entry`: increment the total, the level's
count, store the annotated entry in the level bucket, and — when the step is
truthy — increment the step's per-level count and store the entry in the step
bucket. -/
def LogAnalyzer.add_entry (a : LogAnalyzer) (e : LogEntry)
    (filename : Option String) : LogAnalyzer :=
  let d := mkEntryData e filename
  let a₁ : LogAnalyzer :=
    { a with
      total_entries := a.total_entries + 1,
      level_counts := a.level_counts.update e.level (fun o => o.getD 0 + 1),
      entries_by_level := a.entries_by_level.update e.level (fun o => o.getD [] ++ [d]) }
  match e.step with
  | none => a₁
  | some s =>
    if s = "" then a₁
    else
      { a₁ with
        step_counts := a₁.step_counts.update s
          (fun o => (o.getD Dict.empty).update e.level (fun i => i.getD 0 + 1)),
        entries_by_step := a₁.entries_by_step.update s (fun o => o.getD [] ++ [d]) }

/-- The summary dictionary returned by `get_summary`. -/
structure Summary where
  total_entries : Nat
  level_counts : Dict String Nat
  step_counts : Dict String (Dict String Nat)
  steps : List String
deriving Repr, DecidableEq

/-- Embedding of `LogAnalyzer.get_summary`.  The method only reads the state
(`dict(...)` copies and `keys()` iteration, never a `defaultdict` index), so it
is modelled as returning the summary together with the unchanged state. -/
def LogAnalyzer.get_summary (a : LogAnalyzer) : Summary × LogAnalyzer :=
  (⟨a.total_entries, a.level_counts, a.step_counts, a.step_counts.keys⟩, a)

/-- Embedding of `LogAnalyzer.get_level_frequency` (reads via `dict(...)`). -/
def LogAnalyzer.get_level_frequency (a : LogAnalyzer) : Dict String Nat × LogAnalyzer :=
  (a.level_counts, a)

/-- Embedding of `LogAnalyzer.get_step_frequency` (reads via iteration). -/
def LogAnalyzer.get_step_frequency (a : LogAnalyzer) :
    Dict String (Dict String Nat) × LogAnalyzer :=
  (a.step_counts, a)

/-- Embedding of `LogAnalyzer.get_entries_by_level`: `…​.get(level, [])`, a
non-inserting lookup, so the state is returned unchanged. -/
def LogAnalyzer.get_entries_by_level (a : LogAnalyzer) (level : String) :
    List EntryData × LogAnalyzer :=
  (a.entries_by_level.getD level [], a)

/-- Embedding of `LogAnalyzer.get_entries_by_step`: `…​.get(step, [])`. -/
def LogAnalyzer.get_entries_by_step (a : LogAnalyzer) (step : String) :
    List EntryData × LogAnalyzer :=
  (a.entries_by_step.getD step [], a)

/-- An operation on the aggregator: `add_entry` or `reset`. -/
inductive AggOp
  | add (e : LogEntry) (filename : Option String)
  | reset

/-- Apply one aggregator operation. -/
def applyOp (a : LogAnalyzer) : AggOp → LogAnalyzer
  | .add e f => a.add_entry e f
  | .reset => a.reset

/-- Run a sequence of operations from the freshly initialized aggregator. -/
def runOps (ops : List AggOp) : LogAnalyzer :=
  ops.foldl applyOp LogAnalyzer.init

/-- Run a sequence of `add_entry` calls from the freshly initialized
aggregator. -/
def runAdds (adds : List (LogEntry × Option String)) : LogAnalyzer :=
  adds.foldl (fun s p => s.add_entry p.1 p.2) LogAnalyzer.init

/-- Sum of the values of a counting dictionary (`sum(d.values())`). -/
def sumValues (d : Dict String Nat) : Nat :=
  (d.entries.map Prod.snd).sum

/-- The key under which `add_entry` files an entry in the step buckets:
present exactly when the entry's step is truthy. -/
def stepKey (e : LogEntry) : Option String :=
  match e.step with
  | none => none
  | some s => if s = "" then none else some s

/-! ### Embedding of the File Scanner (`LogParser.parse_file` and
`LogParser.parse_multiple_files`)

File I/O is modelled by an abstract file system mapping a path to `some` list
of its decoded lines when the file can be opened and read, and to `none` when
opening it raises (missing or unreadable path).  `parse_file` catches every
exception, prints an error message and yields nothing further, so it is
embedded as returning the list of yielded entries together with a flag
recording whether an error was reported. -/

/-- Embedding of `LogParser.parse_file`: on success, classify the lines with
1-based line numbers and yield the matching entries in file order; on failure,
report the error (`true` flag) and yield no records. -/
def parse_file (fs : String → Option (List String)) (filepath : String) :
    List LogEntry × Bool :=
  match fs filepath with
  | none => ([], true)
  | some lines => (lines.enum.filterMap (fun p => parseLine p.2 (p.1 + 1)), false)

/-- Embedding of `LogParser.parse_multiple_files`: concatenate, file by file,
the `(filepath, entry)` pairs produced by `parse_file`. -/
def parse_multiple_files (fs : String → Option (List String))
    (filepaths : List String) : List (String × LogEntry) :=
  (filepaths.map (fun p => (parse_file fs p).1.map (fun e => (p, e)))).flatten

/-! ### Embedding of `reporter.py` (`MarkdownReporter.generate_detailed_report`)

The report is modelled as the string written to the output file; the
`datetime.now()` timestamp is a parameter. -/

/-- The text written for one displayed entry of the detailed Markdown report
(the `### Line …` heading with optional filename and step, then the fenced
message). -/
def renderDetailEntry (d : EntryData) : String :=
  "### Line " ++ toString d.line_number
  ++ (match d.filename with
      | some fn => if fn = "" then "" else " - " ++ fn
      | none => "")
  ++ (match d.step with
      | some s => if s = "" then "" else " - [STEP: " ++ s ++ "]"
      | none => "")
  ++ "\n\n" ++ "```\n" ++ d.message ++ "\n```\n\n"

/-- The block the detailed Markdown report writes for one level: nothing when
the level has no entries, otherwise the heading with the total count, the
first `maxEntries` entries, and — when entries were omitted — the trailing
note with the omitted count. -/
def detailedLevelBlock (a : LogAnalyzer) (level : String) (maxEntries : Nat) : String :=
  let entries := (a.get_entries_by_level level).1
  if entries.isEmpty then ""
  else
    "## " ++ level ++ " Messages (" ++ toString entries.length ++ " total)\n\n"
    ++ String.join ((entries.take maxEntries).map renderDetailEntry)
    ++ (if decide (entries.length > maxEntries) then
          "*...and " ++ toString (entries.length - maxEntries) ++ " more "
            ++ level ++ " messages*\n\n"
        else "")

/-- Embedding of `MarkdownReporter.generate_detailed_report` (the file's
contents; `max_entries` defaults to 100 at the call sites). -/
def generate_detailed_report (a : LogAnalyzer) (timestamp : String)
    (maxEntries : Nat) : String :=
  "# Detailed Log Analysis Report\n\n" ++ "**Generated:** " ++ timestamp ++ "\n\n"
  ++ (["CRITICAL", "ERROR", "WARNING"].map
        (fun lvl => detailedLevelBlock a lvl maxEntries)).foldl (fun s b => s ++ b) ""

/-! ### Spec-side definitions and concrete fixtures -/

/-- Spec-side: trim only the *trailing* newline/whitespace of a line, keeping
leading whitespace (the spec's description of the `message` field). -/
def trimTrailing (s : String) : String :=
  String.mk ((s.data.reverse.dropWhile Char.isWhitespace).reverse)

/-- Fixture: the `i`-th ERROR entry used in the truncation scenario. -/
def errEntry (i : Nat) : LogEntry :=
  ⟨i, "msg " ++ toString i, "ERROR", none⟩

/-- Fixture: an aggregator loaded with 150 ERROR entries `msg 1 … msg 150`. -/
def st150 : LogAnalyzer :=
  runAdds ((List.range 150).map (fun i => (errEntry (i + 1), none)))

/-- Fixture file system for the scanner claims: one readable file and nothing
else. -/
def wfs : String → Option (List String) :=
  fun p => if p = "good.log" then some ["ERROR: a", "all quiet", "WARNING: b"] else none

/-- Fixture: the entry the classifier produces for a whitespace-only step
tag. -/
def eBlankStep : LogEntry :=
  ⟨1, "[STEP:  ] ERROR: x", "ERROR", some ""⟩

/-! ### Dictionary lemmas -/

theorem findEntry_update {α β : Type} [DecidableEq α] (l : List (α × β)) (k k' : α)
    (f : Option β → β) :
    Dict.find? ⟨updateEntries l k f⟩ k' =
      if k' = k then some (f (Dict.find? ⟨l⟩ k)) else Dict.find? ⟨l⟩ k' := by
  induction l with
  | nil =>
    by_cases h : k' = k
    · subst h; simp [updateEntries, Dict.find?, List.find?]
    · simp [updateEntries, Dict.find?, List.find?, h,
        show ¬(k = k') from fun hh => h hh.symm]
  | cons hd tl ih =>
    obtain ⟨a, v⟩ := hd
    by_cases hak : a = k
    · subst hak
      by_cases h : k' = a
      · subst h; simp [updateEntries, Dict.find?, List.find?]
      · simp [updateEntries, Dict.find?, List.find?, h,
          show ¬(a = k') from fun hh => h hh.symm]
    · by_cases hak' : a = k'
      · subst hak'
        simp [updateEntries, hak, Dict.find?, List.find?,
          show ¬(a = k) from hak]
      · simpa [updateEntries, hak, Dict.find?, List.find?, hak'] using ih

theorem Dict.find?_update {α β : Type} [DecidableEq α] (d : Dict α β) (k k' : α)
    (f : Option β → β) :
    (d.update k f).find? k' = if k' = k then some (f (d.find? k)) else d.find? k' := by
  obtain ⟨l⟩ := d
  exact findEntry_update l k k' f

theorem Dict.getD_update {α β : Type} [DecidableEq α] (d : Dict α β) (k k' : α)
    (f : Option β → β) (v₀ : β) :
    (d.update k f).getD k' v₀ = if k' = k then f (d.find? k) else d.getD k' v₀ := by
  by_cases h : k' = k <;> simp [Dict.getD, Dict.find?_update, h]

theorem sum_updateEntries_inc (l : List (String × Nat)) (k : String) :
    ((updateEntries l k (fun o => o.getD 0 + 1)).map Prod.snd).sum
      = (l.map Prod.snd).sum + 1 := by
  induction l with
  | nil => simp [updateEntries]
  | cons hd tl ih =>
    obtain ⟨a, v⟩ := hd
    by_cases h : a = k
    · simp [updateEntries, h]
      cases (Dict.find? ⟨tl⟩ k) <;> omega
    · simp [updateEntries, h, ih]
      omega

/-! ### State-shape lemmas for `add_entry` -/

theorem add_entry_total (a : LogAnalyzer) (e : LogEntry) (f : Option String) :
    (a.add_entry e f).total_entries = a.total_entries + 1 := by
  unfold LogAnalyzer.add_entry
  cases e.step with
  | none => rfl
  | some s => by_cases h : s = "" <;> simp [h]

theorem add_entry_level_counts (a : LogAnalyzer) (e : LogEntry) (f : Option String) :
    (a.add_entry e f).level_counts
      = a.level_counts.update e.level (fun o => o.getD 0 + 1) := by
  unfold LogAnalyzer.add_entry
  cases e.step with
  | none => rfl
  | some s => by_cases h : s = "" <;> simp [h]

theorem add_entry_entries_by_level (a : LogAnalyzer) (e : LogEntry) (f : Option String) :
    (a.add_entry e f).entries_by_level
      = a.entries_by_level.update e.level (fun o => o.getD [] ++ [mkEntryData e f]) := by
  unfold LogAnalyzer.add_entry
  cases e.step with
  | none => rfl
  | some s => by_cases h : s = "" <;> simp [h]

theorem add_entry_entries_by_step (a : LogAnalyzer) (e : LogEntry) (f : Option String) :
    (a.add_entry e f).entries_by_step
      = match stepKey e with
        | none => a.entries_by_step
        | some s => a.entries_by_step.update s (fun o => o.getD [] ++ [mkEntryData e f]) := by
  unfold LogAnalyzer.add_entry stepKey
  cases e.step with
  | none => rfl
  | some s => by_cases h : s = "" <;> simp [h]

theorem add_entry_step_counts (a : LogAnalyzer) (e : LogEntry) (f : Option String) :
    (a.add_entry e f).step_counts
      = match stepKey e with
        | none => a.step_counts
        | some s => a.step_counts.update s
            (fun o => (o.getD Dict.empty).update e.level (fun i => i.getD 0 + 1)) := by
  unfold LogAnalyzer.add_entry stepKey
  cases e.step with
  | none => rfl
  | some s => by_cases h : s = "" <;> simp [h]

/-! ### Aggregation lemmas -/

/-- The count invariant relating the running total to the level counts. -/
def totalsInv (a : LogAnalyzer) : Prop :=
  a.total_entries = sumValues a.level_counts

theorem totalsInv_add (a : LogAnalyzer) (e : LogEntry) (f : Option String)
    (h : totalsInv a) : totalsInv (a.add_entry e f) := by
  unfold totalsInv at *
  rw [add_entry_total, add_entry_level_counts, h]
  unfold sumValues Dict.update
  rw [sum_updateEntries_inc]

theorem foldl_ops_inv (ops : List AggOp) :
    ∀ a : LogAnalyzer, totalsInv a → totalsInv (ops.foldl applyOp a) := by
  induction ops with
  | nil => exact fun a h => h
  | cons op rest ih =>
    intro a h
    refine ih (applyOp a op) ?_
    cases op with
    | add e f => exact totalsInv_add a e f h
    | reset => rfl

theorem foldl_adds_by_level (adds : List (LogEntry × Option String)) :
    ∀ (a : LogAnalyzer) (lvl : String),
      (adds.foldl (fun s p => s.add_entry p.1 p.2) a).entries_by_level.getD lvl []
        = a.entries_by_level.getD lvl []
          ++ (adds.filter (fun p => decide (p.1.level = lvl))).map
              (fun p => mkEntryData p.1 p.2) := by
  induction adds with
  | nil => intro a lvl; simp
  | cons p rest ih =>
    intro a lvl
    have hstep :
        (a.add_entry p.1 p.2).entries_by_level.getD lvl []
          = a.entries_by_level.getD lvl []
            ++ (if p.1.level = lvl then [mkEntryData p.1 p.2] else []) := by
      rw [add_entry_entries_by_level, Dict.getD_update]
      by_cases h : p.1.level = lvl
      · subst h; simp [Dict.getD]
      · simp [h, show ¬(lvl = p.1.level) from fun hh => h hh.symm]
    calc (((p :: rest).foldl (fun s q => s.add_entry q.1 q.2) a)).entries_by_level.getD lvl []
        = ((rest.foldl (fun s q => s.add_entry q.1 q.2) (a.add_entry p.1 p.2))).entries_by_level.getD lvl [] := by
          simp [List.foldl]
      _ = (a.add_entry p.1 p.2).entries_by_level.getD lvl []
            ++ (rest.filter (fun q => decide (q.1.level = lvl))).map
                (fun q => mkEntryData q.1 q.2) := ih _ lvl
      _ = a.entries_by_level.getD lvl []
            ++ ((p :: rest).filter (fun q => decide (q.1.level = lvl))).map
                (fun q => mkEntryData q.1 q.2) := by
          rw [hstep]
          by_cases h : p.1.level = lvl <;> simp [h, List.filter]

theorem foldl_adds_by_step (adds : List (LogEntry × Option String)) :
    ∀ (a : LogAnalyzer) (st : String),
      (adds.foldl (fun s p => s.add_entry p.1 p.2) a).entries_by_step.getD st []
        = a.entries_by_step.getD st []
          ++ (adds.filter (fun p => decide (stepKey p.1 = some st))).map
              (fun p => mkEntryData p.1 p.2) := by
  induction adds with
  | nil => intro a st; simp
  | cons p rest ih =>
    intro a st
    have hstep :
        (a.add_entry p.1 p.2).entries_by_step.getD st []
          = a.entries_by_step.getD st []
            ++ (if stepKey p.1 = some st then [mkEntryData p.1 p.2] else []) := by
      rw [add_entry_entries_by_step]
      cases hk : stepKey p.1 with
      | none => simp
      | some t =>
        rw [Dict.getD_update]
        by_cases h : t = st
        · subst h; simp [Dict.getD]
        · simp [h, show ¬(st = t) from fun hh => h hh.symm]
    calc (((p :: rest).foldl (fun s q => s.add_entry q.1 q.2) a)).entries_by_step.getD st []
        = ((rest.foldl (fun s q => s.add_entry q.1 q.2) (a.add_entry p.1 p.2))).entries_by_step.getD st [] := by
          simp [List.foldl]
      _ = (a.add_entry p.1 p.2).entries_by_step.getD st []
            ++ (rest.filter (fun q => decide (stepKey q.1 = some st))).map
                (fun q => mkEntryData q.1 q.2) := ih _ st
      _ = a.entries_by_step.getD st []
            ++ ((p :: rest).filter (fun q => decide (stepKey q.1 = some st))).map
                (fun q => mkEntryData q.1 q.2) := by
          rw [hstep]
          by_cases h : stepKey p.1 = some st <;> simp [h, List.filter]

/-! ### Reporter lemmas -/

theorem detailedLevelBlock_over (a : LogAnalyzer) (lvl : String) (m : Nat)
    (h : m < (a.get_entries_by_level lvl).1.length) :
    detailedLevelBlock a lvl m
      = "## " ++ lvl ++ " Messages (" ++ toString (a.get_entries_by_level lvl).1.length
          ++ " total)\n\n"
        ++ String.join (((a.get_entries_by_level lvl).1.take m).map renderDetailEntry)
        ++ ("*...and " ++ toString ((a.get_entries_by_level lvl).1.length - m) ++ " more "
              ++ lvl ++ " messages*\n\n") := by
  have h0 : (a.get_entries_by_level lvl).1.isEmpty = false := by
    cases hl : (a.get_entries_by_level lvl).1 with
    | nil => rw [hl] at h; simp at h
    | cons x xs => rfl
  have h1 : decide ((a.get_entries_by_level lvl).1.length > m) = true := decide_eq_true h
  simp only [detailedLevelBlock, h0, h1, Bool.false_eq_true, if_false, if_true]

/-! ### The claims -/

/-- C1: for every input line and line number, the classifier assigns the level
equal to the first of CRITICAL, ERROR, WARNING whose keyword occurs in the
line as a case-insensitive word-boundary match (a line with both CRITICAL and
ERROR is classified CRITICAL; ERROR inside the longer token ERRORCODE does not
match), and produces no record when none of the three markers matches. -/
theorem claim_C1_level_priority :
    (∀ (line : String) (n : Nat),
        (parseLine line n).map LogEntry.level = firstMatchingLevel line)
    ∧ (parseLine "has CRITICAL and ERROR here" 1).map LogEntry.level = some "CRITICAL"
    ∧ parseLine "an ERRORCODE token" 1 = none
    ∧ (parseLine "a critical thing happened" 2).map LogEntry.level = some "CRITICAL"
    ∧ parseLine "nothing of note" 3 = none := by
  refine ⟨?_, by decide, by decide, by decide, by decide⟩
  intro line n
  unfold parseLine parseLineLevel firstMatchingLevel
  by_cases h1 : searchWord "CRITICAL" line = true
  · simp [h1, List.find?]
  · by_cases h2 : searchWord "ERROR" line = true
    · simp [h1, h2, List.find?]
    · by_cases h3 : searchWord "WARNING" line = true
      · simp [h1, h2, h3, List.find?]
      · simp [h1, h2, h3, List.find?]

/-- C2: for every line matching a severity marker, the classifier searches the
line for a case-insensitive `[STEP:<text>]` tag, sets the step to the captured
text with surrounding whitespace trimmed, and leaves the step unset when the
tag is absent or malformed; in particular `"[STEP:Load] ERROR: failed"` yields
level ERROR with step `"Load"`. -/
theorem claim_C2_step_extraction :
    parseLine "[STEP:Load] ERROR: failed" 1
      = some ⟨1, "[STEP:Load] ERROR: failed", "ERROR", some "Load"⟩
    ∧ (∀ (line : String) (n : Nat),
        (parseLine line n).map LogEntry.step
          = (parseLineLevel line).map (fun _ => extractStep line))
    ∧ extractStep "[STEP:] ERROR empty tag" = none
    ∧ extractStep "ERROR with [STEP:unclosed" = none
    ∧ extractStep "[step:  x ] error here" = some "x"
    ∧ extractStep "plain ERROR line" = none := by
  refine ⟨by decide, ?_, by decide, by decide, by decide, by decide⟩
  intro line n
  unfold parseLine
  cases parseLineLevel line <;> simp

/-- C3 (counterexample): on the line `"  ERROR: x"` the classifier's message is
`"ERROR: x"` — the leading whitespace is **not** preserved, contradicting the
claim that the message is the line with only trailing whitespace trimmed. -/
theorem claim_C3_counterexample :
    (parseLine "  ERROR: x" 1).map LogEntry.message = some "ERROR: x"
    ∧ trimTrailing "  ERROR: x" = "  ERROR: x"
    ∧ (parseLine "  ERROR: x" 1).map LogEntry.message
        ≠ some (trimTrailing "  ERROR: x") := by
  refine ⟨by decide, by decide, by decide⟩

/-- C3 (amended): for every classified line, the message field equals the
original line text with **both** leading and trailing whitespace trimmed
(Python `str.strip()`). -/
theorem claim_C3_message_stripped :
    ∀ (line : String) (n : Nat),
      (parseLine line n).map LogEntry.message
        = (parseLineLevel line).map (fun _ => strip line) := by
  intro line n
  unfold parseLine
  cases parseLineLevel line <;> simp

/-- C4: after every sequence of `add_entry` and `reset` operations applied
from the initial state, `total_entries` equals the sum of the values of
`level_counts`. -/
theorem claim_C4_totals_invariant :
    ∀ ops : List AggOp,
      (runOps ops).total_entries = sumValues (runOps ops).level_counts := by
  intro ops
  exact foldl_ops_inv ops LogAnalyzer.init rfl

/-- C5: `get_summary` does not mutate the state, so two calls without an
intervening add return equal summaries, and on a freshly initialized or
freshly reset aggregator it succeeds with a zero total, an all-zero level
count mapping, and no steps. -/
theorem claim_C5_summary_snapshot :
    (∀ a : LogAnalyzer, (a.get_summary).2 = a)
    ∧ (∀ a : LogAnalyzer, ((a.get_summary).2.get_summary).1 = (a.get_summary).1)
    ∧ (LogAnalyzer.init.get_summary).1.total_entries = 0
    ∧ (∀ lvl : String, (LogAnalyzer.init.get_summary).1.level_counts.getD lvl 0 = 0)
    ∧ (LogAnalyzer.init.get_summary).1.steps = []
    ∧ (∀ a : LogAnalyzer, ((a.reset).get_summary).1 = (LogAnalyzer.init.get_summary).1) := by
  exact ⟨fun a => rfl, fun a => rfl, rfl, fun lvl => rfl, rfl, fun a => rfl⟩

/-- C6: after any sequence of adds, `get_entries_by_level` and
`get_entries_by_step` return exactly the annotated records filed under that
key, in insertion order, and the empty list for a key never added — they are
total functions with no error case. -/
theorem claim_C6_entries_in_order :
    (∀ (adds : List (LogEntry × Option String)) (lvl : String),
        ((runAdds adds).get_entries_by_level lvl).1
          = (adds.filter (fun p => decide (p.1.level = lvl))).map
              (fun p => mkEntryData p.1 p.2))
    ∧ (∀ (adds : List (LogEntry × Option String)) (st : String),
        ((runAdds adds).get_entries_by_step st).1
          = (adds.filter (fun p => decide (stepKey p.1 = some st))).map
              (fun p => mkEntryData p.1 p.2))
    ∧ ((runAdds [(⟨1, "ERROR: a", "ERROR", none⟩, none)]).get_entries_by_level "WARNING").1 = []
    ∧ ((runAdds [(⟨1, "ERROR: a", "ERROR", none⟩, none)]).get_entries_by_step "Load").1 = [] := by
  refine ⟨?_, ?_, by decide, by decide⟩
  · intro adds lvl
    have h := foldl_adds_by_level adds LogAnalyzer.init lvl
    simpa [runAdds, LogAnalyzer.get_entries_by_level] using h
  · intro adds st
    have h := foldl_adds_by_step adds LogAnalyzer.init st
    simpa [runAdds, LogAnalyzer.get_entries_by_step] using h

/-- C7: the detailed Markdown report writes, for each level in the fixed order
CRITICAL, ERROR, WARNING, at most the first `maxEntries` (default 100) stored
records of that level, appending an omitted-count note when more exist; over
150 ERROR records it renders exactly the first 100 and the note
`"*...and 50 more ERROR messages*"`. -/
theorem claim_C7_detailed_report_truncation :
    (∀ (a : LogAnalyzer) (ts : String) (m : Nat),
        generate_detailed_report a ts m
          = "# Detailed Log Analysis Report\n\n" ++ "**Generated:** " ++ ts ++ "\n\n"
            ++ (detailedLevelBlock a "CRITICAL" m ++ detailedLevelBlock a "ERROR" m
                  ++ detailedLevelBlock a "WARNING" m))
    ∧ (∀ (a : LogAnalyzer) (lvl : String) (m : Nat),
        ((a.get_entries_by_level lvl).1.take m).length
          = min m (a.get_entries_by_level lvl).1.length)
    ∧ (st150.get_entries_by_level "ERROR").1.length = 150
    ∧ (st150.get_entries_by_level "ERROR").1.take 100
        = (List.range 100).map (fun i => mkEntryData (errEntry (i + 1)) none)
    ∧ detailedLevelBlock st150 "ERROR" 100
        = "## ERROR Messages (150 total)\n\n"
          ++ String.join (((List.range 100).map
                (fun i => mkEntryData (errEntry (i + 1)) none)).map renderDetailEntry)
          ++ "*...and 50 more ERROR messages*\n\n"
    ∧ detailedLevelBlock st150 "CRITICAL" 100 = ""
    ∧ detailedLevelBlock st150 "WARNING" 100 = "" := by
  refine ⟨?_, ?_, by decide, by decide, ?_, by decide, by decide⟩
  · intro a ts m
    unfold generate_detailed_report
    simp [List.foldl, String.append_assoc]
  · intro a lvl m
    exact List.length_take m (a.get_entries_by_level lvl).1
  · rw [detailedLevelBlock_over st150 "ERROR" 100 (by decide)]
    rw [show (st150.get_entries_by_level "ERROR").1.length = 150 from by decide]
    rw [show (st150.get_entries_by_level "ERROR").1.take 100
          = (List.range 100).map (fun i => mkEntryData (errEntry (i + 1)) none) from by decide]
    rfl

/-- C8: when the scanner is given an unreadable path it reports the error and
yields no records for that file, and in the batch variant the other files'
output is exactly what it would have been without the failing file. -/
theorem claim_C8_scan_failure_isolated :
    ∀ (fs : String → Option (List String)) (pre : List String) (bad : String)
      (post : List String), fs bad = none →
      parse_file fs bad = ([], true)
      ∧ parse_multiple_files fs (pre ++ bad :: post)
          = parse_multiple_files fs pre ++ parse_multiple_files fs post := by
  intro fs pre bad post h
  constructor
  · unfold parse_file
    rw [h]
  · unfold parse_multiple_files
    simp [parse_file, h]

/-- Witness for C8 at a concrete file system: `"bad.log"` is unreadable, the
scan of it yields nothing, and the batch over `good, bad, good` equals the two
good scans concatenated. -/
theorem claim_C8_witness :
    wfs "bad.log" = none
    ∧ (parse_file wfs "bad.log" = ([], true)
        ∧ parse_multiple_files wfs (["good.log"] ++ "bad.log" :: ["good.log"])
            = parse_multiple_files wfs ["good.log"] ++ parse_multiple_files wfs ["good.log"]) :=
  ⟨by decide, claim_C8_scan_failure_isolated wfs ["good.log"] "bad.log" ["good.log"] (by decide)⟩

/-- C9: a step tag whose content is only whitespace yields `step = ""`, and
`add_entry` then treats the record as having no step: the total and the level
structures are updated but the step structures are untouched. -/
theorem claim_C9_blank_step_ignored :
    ∀ (a : LogAnalyzer) (e : LogEntry) (f : Option String), e.step = some "" →
      parseLine "[STEP:  ] ERROR: x" 1 = some ⟨1, "[STEP:  ] ERROR: x", "ERROR", some ""⟩
      ∧ (a.add_entry e f).total_entries = a.total_entries + 1
      ∧ (a.add_entry e f).level_counts
          = a.level_counts.update e.level (fun o => o.getD 0 + 1)
      ∧ (a.add_entry e f).entries_by_level
          = a.entries_by_level.update e.level (fun o => o.getD [] ++ [mkEntryData e f])
      ∧ (a.add_entry e f).step_counts = a.step_counts
      ∧ (a.add_entry e f).entries_by_step = a.entries_by_step := by
  intro a e f h
  have hk : stepKey e = none := by
    unfold stepKey
    rw [h]
    simp
  refine ⟨by decide, add_entry_total a e f, add_entry_level_counts a e f,
    add_entry_entries_by_level a e f, ?_, ?_⟩
  · rw [add_entry_step_counts a e f, hk]
  · rw [add_entry_entries_by_step a e f, hk]

/-- Witness for C9 on the concrete whitespace-step entry added to a fresh
aggregator. -/
theorem claim_C9_witness :
    eBlankStep.step = some ""
    ∧ (parseLine "[STEP:  ] ERROR: x" 1 = some ⟨1, "[STEP:  ] ERROR: x", "ERROR", some ""⟩
        ∧ (LogAnalyzer.init.add_entry eBlankStep none).total_entries
            = LogAnalyzer.init.total_entries + 1
        ∧ (LogAnalyzer.init.add_entry eBlankStep none).level_counts
            = LogAnalyzer.init.level_counts.update eBlankStep.level (fun o => o.getD 0 + 1)
        ∧ (LogAnalyzer.init.add_entry eBlankStep none).entries_by_level
            = LogAnalyzer.init.entries_by_level.update eBlankStep.level
                (fun o => o.getD [] ++ [mkEntryData eBlankStep none])
        ∧ (LogAnalyzer.init.add_entry eBlankStep none).step_counts
            = LogAnalyzer.init.step_counts
        ∧ (LogAnalyzer.init.add_entry eBlankStep none).entries_by_step
            = LogAnalyzer.init.entries_by_step) :=
  ⟨rfl, claim_C9_blank_step_ignored LogAnalyzer.init eBlankStep none rfl⟩

/-- C10: every read operation on the aggregator returns the state unchanged —
querying an unknown level or step creates no bucket and alters no field. -/
theorem claim_C10_reads_pure :
    ∀ (a : LogAnalyzer) (lvl st : String),
      (a.get_summary).2 = a
      ∧ (a.get_entries_by_level lvl).2 = a
      ∧ (a.get_entries_by_step st).2 = a
      ∧ (a.get_level_frequency).2 = a
      ∧ (a.get_step_frequency).2 = a
      ∧ (a.get_entries_by_level lvl).2.entries_by_level.keys = a.entries_by_level.keys
      ∧ (a.get_entries_by_step st).2.entries_by_step.keys = a.entries_by_step.keys := by
  exact fun a lvl st => ⟨rfl, rfl, rfl, rfl, rfl, rfl, rfl⟩

end ConversionLogAnalyzer
